import Mathlib

/-!
Verification of the QuiteNews curation pipeline (`curator.py`).

The pipeline's core is embedded shallowly:
* machine floats become `ℚ`;
* Python dict fields that may be absent (`article["score"]` before the
  Score Engine has run) become `Option ℚ`, and a read of an absent key is a
  `KeyError`, modelled as `Except.error ()`;
* the external zero-shot classifier and the sentence embedder are opaque
  parameters; a raised exception from either is `Except.error ()`;
* Python `str.lower` and the substring operator `in` are embedded over the
  character list of the string.
-/

/-- An article record, mirroring the dict built by `fetch_articles` and later
enriched in place by `classify_articles` and `calculate_score`.  Keys that the
pipeline adds only later (`category`, `category_confidence`, `is_trending`,
`is_must_know`, `score`) carry defaults / `Option` so that a freshly fetched
article can be represented; reading the absent `score` key is modelled as a
failure by `scoreOf`. -/
structure Article where
  title : String
  summary : String
  url : String
  source : String
  source_weight : ℚ
  published_at : ℚ
  text_for_ai : String
  image_url : String
  category : String := ""
  category_confidence : ℚ := 1
  is_trending : Bool := false
  is_must_know : Bool := false
  score : Option ℚ := none
deriving DecidableEq

/-- Result of the zero-shot classifier: ranked labels with scores. -/
structure OracleResult where
  labels : List String
  scores : List ℚ
deriving DecidableEq

/-- `CATEGORIES` from the config section. -/
def CATEGORIES : List String := ["Scholarships", "Internships & Jobs"]

/-- `TOP_N = 10` from the config section. -/
def TOP_N : Nat := 10

/-- `DEDUP_THRESHOLD = 0.85` from the config section (17/20, written with
`mkRat` so that concrete runs of the dedup loop evaluate). -/
def DEDUP_THRESHOLD : ℚ := mkRat 17 20

/-- Python `str.lower()`, character by character. -/
def lowerStr (s : String) : String := ⟨s.data.map Char.toLower⟩

/-- Python's substring test `pat in s` on character lists. -/
def substrList (pat : List Char) : List Char → Bool
  | [] => pat.isEmpty
  | c :: rest => pat.isPrefixOf (c :: rest) || substrList pat rest

/-- Python's substring test `pat in s` on strings. -/
def strIn (pat s : String) : Bool := substrList pat.data s.data

/-- `india_keywords` from `is_student_related`. -/
def india_keywords : List String :=
  ["india", "indian", "delhi", "mumbai", "bengaluru", "hyderabad", "chennai",
   "kolkata", "pune", "apply in india", "for indian students"]

/-- `student_keywords` from `is_student_related`. -/
def student_keywords : List String :=
  ["scholarship", "intern", "internship", "fresher job", "apply", "last date",
   "notification", "admit card", "exam", "result", "career", "placement",
   "recruitment", "govt job", "sarkari", "stipend", "grant", "award"]

/-- `reject_keywords` from `is_student_related`. -/
def reject_keywords : List String :=
  ["ireland", "australia", "uk", "usa", "canada", "europe", "global",
   "international student", "the pie news", "tertiary education commission",
   "south east technological university"]

/-- `is_student_related(text)`: must contain an India keyword and a student
keyword, and no reject keyword, over the lowercased text. -/
def is_student_related (text : String) : Bool :=
  let text_lower := lowerStr text
  let has_india := india_keywords.any fun kw => strIn kw text_lower
  let has_student := student_keywords.any fun kw => strIn kw text_lower
  let has_reject := reject_keywords.any fun kw => strIn kw text_lower
  has_india && has_student && !has_reject

/-- `is_trending(text)` keyword predicate. -/
def is_trending (text : String) : Bool :=
  ["viral", "trending", "breaking", "record", "skyrockets"].any
    fun kw => strIn kw (lowerStr text)

/-- `is_must_know(text)` keyword predicate. -/
def is_must_know (text : String) : Bool :=
  ["last date", "apply now", "urgent", "deadline", "closing soon"].any
    fun kw => strIn kw (lowerStr text)

/-- Keywords of the forced `Scholarships` rule in `classify_articles`. -/
def scholarship_rule_keywords : List String :=
  ["scholarship", "vidyalakshmi", "aicte", "ugc", "tata", "reliance",
   "google scholarship"]

/-- Keywords of the forced `Internships & Jobs` rule in `classify_articles`. -/
def internship_rule_keywords : List String :=
  ["intern", "internship", "google careers", "microsoft india", "amazon india",
   "flipkart", "isro", "sarkari"]

/-- The `Scholarships` rule: some keyword occurs in the lowercased source name
or in the lowercased classification text. -/
def scholarship_rule (source text_lower : String) : Bool :=
  scholarship_rule_keywords.any fun kw => strIn kw source || strIn kw text_lower

/-- The `Internships & Jobs` rule, same shape. -/
def internship_rule (source text_lower : String) : Bool :=
  internship_rule_keywords.any fun kw => strIn kw source || strIn kw text_lower

/-- One iteration of the loop body of `classify_articles`, for a single
article.  The `try` block catches every exception and then `continue`s, so a
failing article yields `none`.  Exceptions can arise from the classifier call
(`oracle` returning `.error`) and from `result["labels"][0]` on an empty label
list.  On success the article is returned enriched exactly as the code writes
it: `category`, then `category_confidence = 1.0`, then the two tags. -/
def classifyOne (oracle : String → Except Unit OracleResult) (article : Article) :
    Option Article :=
  if is_student_related article.text_for_ai then
    let text_lower := lowerStr article.text_for_ai
    let source := lowerStr article.source
    let step : Except Unit Article :=
      if scholarship_rule source text_lower then
        .ok { article with category := "Scholarships" }
      else if internship_rule source text_lower then
        .ok { article with category := "Internships & Jobs" }
      else
        match oracle article.text_for_ai with
        | .error e => .error e
        | .ok result =>
          match result.labels.get? 0 with
          | some lab => .ok { article with category := lab }
          | none => .error ()
    match step with
    | .error _ => none
    | .ok a1 =>
      some { a1 with
        category_confidence := 1,
        is_trending := is_trending a1.text_for_ai,
        is_must_know := is_must_know a1.text_for_ai }
  else none

/-- `classify_articles`: the surviving, enriched articles in input order. -/
def classify_articles (oracle : String → Except Unit OracleResult)
    (articles : List Article) : List Article :=
  articles.filterMap (classifyOne oracle)

/-- The recency factor `max(0.1, 1 - age_hours / (7*24))` of
`calculate_score`. -/
def recency_multiplier (age_hours : ℚ) : ℚ :=
  max (1/10) (1 - age_hours / (7*24))

/-- `calculate_score(article, now)`: returns the computed score together with
the article after the in-place write `article["score"] = score`.  Timestamps
are in seconds, so `age_hours = (now - published_at)/3600` as in the code. -/
def calculate_score (article : Article) (now : ℚ) : ℚ × Article :=
  let age_hours := (now - article.published_at) / 3600
  let score := article.source_weight
  let score := score * recency_multiplier age_hours
  let score := score * article.category_confidence
  let score := if article.is_must_know then score * (3/2) else score
  (score, { article with score := some score })

/-- The texts `a["title"] + " " + a["summary"][:100]` that
`deduplicate_articles` sends to the embedder. -/
def dedup_texts (articles : List Article) : List String :=
  articles.map fun a => a.title ++ " " ++ a.summary.take 100

/-- The dict read `articles[k]["score"]`: a `KeyError` (`.error`) when the
score key has not been written, an `IndexError` out of range. -/
def scoreOf (arts : List Article) (k : Nat) : Except Unit ℚ :=
  match arts.get? k with
  | some a =>
    match a.score with
    | some s => .ok s
    | none => .error ()
  | none => .error ()

/-- The inner loop `for j in range(i+1, n)` of `deduplicate_articles`, over the
remaining values of `j`, threading the `to_remove` set (as a list).  On a
similarity strictly above the threshold both scores are read (possible
`KeyError`); the lower-scoring index is added, and when `i` itself is added the
loop breaks. -/
def dedupInner (sim : Nat → Nat → ℚ) (arts : List Article) (i : Nat) :
    List Nat → List Nat → Except Unit (List Nat)
  | [], rem => .ok rem
  | j :: js, rem =>
    if DEDUP_THRESHOLD < sim i j then do
      let si ← scoreOf arts i
      let sj ← scoreOf arts j
      if sj ≤ si then dedupInner sim arts i js (j :: rem)
      else .ok (i :: rem)
    else dedupInner sim arts i js rem

/-- The outer loop `for i in range(n)` of `deduplicate_articles`: skip an `i`
already in `to_remove`, otherwise run the inner loop and continue with the
enlarged set. -/
def dedupOuter (sim : Nat → Nat → ℚ) (arts : List Article) :
    List Nat → List Nat → Except Unit (List Nat)
  | [], rem => .ok rem
  | i :: rest, rem =>
    if rem.contains i then dedupOuter sim arts rest rem
    else do
      let rem' ← dedupInner sim arts i
        (List.range' (i+1) (arts.length - (i+1))) rem
      dedupOuter sim arts rest rem'

/-- `deduplicate_articles(articles)`.  The embedder is a parameter; only the
batch embedding call sits inside the `try`, so an embedding failure returns
the input unchanged while a `KeyError` in the comparison loop propagates. -/
def deduplicate_articles
    (embed : List String → Except Unit (Nat → Nat → ℚ))
    (articles : List Article) : Except Unit (List Article) :=
  if articles.length = 0 then .ok []
  else
    match embed (dedup_texts articles) with
    | .error _ => .ok articles
    | .ok sim => do
      let rem ← dedupOuter sim articles (List.range articles.length) []
      .ok (((articles.enum).filter fun p => !rem.contains p.1).map Prod.snd)

/-- The sort key `x.get("score", 0)` used by `select_top_per_category`. -/
def sortKey (a : Article) : ℚ := a.score.getD 0

/-- Insert into an already descending list, after every element whose key is
strictly greater — so equal keys keep the earlier element first, matching the
stability of Python's `sorted`. -/
def insertDesc (a : Article) : List Article → List Article
  | [] => [a]
  | b :: rest =>
    if sortKey a < sortKey b then b :: insertDesc a rest
    else a :: b :: rest

/-- Python's `sorted(key=lambda x: x.get("score", 0), reverse=True)`:
a stable descending sort by `sortKey`. -/
def sortByScoreDesc : List Article → List Article
  | [] => []
  | a :: rest => insertDesc a (sortByScoreDesc rest)

/-- `categorized[key].append(a)`: appends to the entry of `key`, `KeyError`
(`none`) when the dict has no such key. -/
def dictAppend : List (String × List Article) → String → Article →
    Option (List (String × List Article))
  | [], _, _ => none
  | (k, l) :: rest, key, a =>
    if k = key then some ((k, l ++ [a]) :: rest)
    else (dictAppend rest key a).map fun d => (k, l) :: d

/-- The first loop of `select_top_per_category`: score each article in place
(with the selector's own `now`) and append it to its category's bucket. -/
def groupArticles (now : ℚ) : List Article → List (String × List Article) →
    Except Unit (List (String × List Article))
  | [], d => .ok d
  | a :: rest, d =>
    let a' := (calculate_score a now).2
    match dictAppend d a'.category a' with
    | some d' => groupArticles now rest d'
    | none => .error ()

/-- `{cat: [] for cat in CATEGORIES}`. -/
def initDict : List (String × List Article) := CATEGORIES.map fun c => (c, [])

/-- `select_top_per_category(articles)`: group by category over the fixed
taxonomy, sort each bucket descending by score (stable), truncate to
`TOP_N`. -/
def select_top_per_category (now : ℚ) (articles : List Article) :
    Except Unit (List (String × List Article)) :=
  match groupArticles now articles initDict with
  | .error e => .error e
  | .ok d => .ok (d.map fun p => (p.1, (sortByScoreDesc p.2).take TOP_N))

/-- The `__main__` pipeline after fetching: abort when nothing was fetched,
classify, deduplicate, score every survivor at `nowScore`, then select (whose
own `utcnow` call is `nowSelect`).  An uncaught exception anywhere aborts the
run (`.error`). -/
def main_pipeline (oracle : String → Except Unit OracleResult)
    (embed : List String → Except Unit (Nat → Nat → ℚ))
    (nowScore nowSelect : ℚ) (articles : List Article) :
    Except Unit (List (String × List Article)) :=
  if articles.length = 0 then .error ()
  else do
    let cl := classify_articles oracle articles
    let dd ← deduplicate_articles embed cl
    let scored := dd.map fun a => (calculate_score a nowScore).2
    select_top_per_category nowSelect scored

/-- Total score lookup for index `k`, defined when every article's score key
is present (`getD 0` is never reached then). -/
def scoreFn (arts : List Article) (k : Nat) : ℚ :=
  ((arts.get? k).bind Article.score).getD 0

/-- Modelled from the spec's account of the dedup pass, for one cluster seed
`i`: "for each `j > i`, if `similarity(i,j) > threshold` (0.85), compare
`score[i]` vs `score[j]`: the lower-scoring of the pair is marked removed; if
`i` itself is removed this way, stop comparing `i` against further `j`", with
the tie-break "on score equality, the later index `j` is removed". -/
def specScan (sim : Nat → Nat → ℚ) (score : Nat → ℚ) (i : Nat) :
    List Nat → Finset ℕ → Finset ℕ
  | [], removed => removed
  | j :: js, removed =>
    if DEDUP_THRESHOLD < sim i j then
      if score i < score j then insert i removed
      else specScan sim score i js (insert j removed)
    else specScan sim score i js removed

/-- Modelled from the spec's account of the dedup pass: "in original index
order `i = 0..n-1`: skip `i` if already marked removed", otherwise scan the
later indices. -/
def specFold (sim : Nat → Nat → ℚ) (score : Nat → ℚ) (n : Nat)
    (indices : List Nat) (start : Finset ℕ) : Finset ℕ :=
  indices.foldl
    (fun removed i =>
      if i ∈ removed then removed
      else specScan sim score i (List.range' (i+1) (n - (i+1))) removed)
    start

/-- The set of indices the spec's described pass marks removed. -/
def specRemoved (sim : Nat → Nat → ℚ) (score : Nat → ℚ) (n : Nat) : Finset ℕ :=
  specFold sim score n (List.range n) ∅

/-- Index `k` was removed against a partner: some other index similar to it
(in loop orientation, lower index first) whose score is at least `k`'s. -/
def removalJustified (sim : Nat → Nat → ℚ) (score : Nat → ℚ) (k : ℕ) : Prop :=
  ∃ p, ((k < p ∧ DEDUP_THRESHOLD < sim k p) ∨ (p < k ∧ DEDUP_THRESHOLD < sim p k)) ∧
    score k ≤ score p

/-- The articles after the selector's in-place rescoring pass, in input
order. -/
def scoredList (now : ℚ) (articles : List Article) : List Article :=
  articles.map fun a => (calculate_score a now).2

/-- A concrete article that passes the relevance gate (`india`, `exam`) but
matches no forced classification rule, so it reaches the oracle tier. -/
def artNoRule : Article :=
  { title := "t", summary := "some exam summary", url := "u", source := "x",
    source_weight := 1, published_at := 0, text_for_ai := "india exam",
    image_url := "" }

/-- A concrete article that the forced `Scholarships` rule classifies. -/
def artScholar (t : String) : Article :=
  { title := t, summary := "s", url := "u", source := "x", source_weight := 1,
    published_at := 0, text_for_ai := "india scholarship", image_url := "" }

/-- A concrete already-scored article, as it stands after the Score Engine. -/
def artScored (t : String) (s : ℚ) : Article :=
  { title := t, summary := "s", url := "u", source := "x", source_weight := 1,
    published_at := 0, text_for_ai := "", image_url := "", score := some s }

/-- A concrete similarity matrix: article 0 is similar to 1 and to 2 (0.9),
while 1 and 2 are not similar to each other. -/
def simChain : Nat → Nat → ℚ := fun i j =>
  if i = 0 && j = 1 then mkRat 9 10
  else if i = 0 && j = 2 then mkRat 9 10
  else 0

/-- A concrete oracle that ranks `Internships & Jobs` first with
confidence 0.73. -/
def oracle73 : String → Except Unit OracleResult :=
  fun _ => .ok ⟨["Internships & Jobs", "Scholarships"], [73/100, 27/100]⟩

/-- A concrete unclassified article for score computations. -/
def artPlain : Article :=
  { title := "t", summary := "s", url := "u", source := "x", source_weight := 1,
    published_at := 0, text_for_ai := "", image_url := "" }

/-- Three scored articles forming a similarity chain under `simChain`:
0 similar to 1 and to 2, scores 2, 1, 3. -/
def artsChain : List Article :=
  [artScored "a0" 2, artScored "a1" 1, artScored "a2" 3]

/-! ### Helper lemmas -/

theorem DEDUP_THRESHOLD_eq : DEDUP_THRESHOLD = 17/20 := by
  norm_num [DEDUP_THRESHOLD, mkRat, Rat.normalize]

theorem except_ok_bind {α β : Type} (x : α) (f : α → Except Unit β) :
    (Except.ok x >>= f) = f x := rfl

theorem except_error_bind {α β : Type} (f : α → Except Unit β) :
    ((Except.error () : Except Unit α) >>= f) = Except.error () := rfl

/-! ### C10: recency floor -/

/-- C10: for every article whose age in hours is at least the 7×24-hour
window, the recency multiplier used by `calculate_score` equals exactly 0.1,
and the resulting score is the source weight times 0.1 times the confidence
(times 1.5 when must-know). -/
theorem recency_floor (a : Article) (now : ℚ)
    (h : 7*24 ≤ (now - a.published_at) / 3600) :
    recency_multiplier ((now - a.published_at) / 3600) = 1/10 ∧
    (calculate_score a now).1 =
      a.source_weight * (1/10) * a.category_confidence *
        (if a.is_must_know then (3/2 : ℚ) else 1) := by
  have hm : recency_multiplier ((now - a.published_at) / 3600) = 1/10 := by
    unfold recency_multiplier
    have h2 : (1 : ℚ) ≤ (now - a.published_at) / 3600 / (7*24) := by
      rw [le_div_iff₀ (by norm_num : (0:ℚ) < 7*24)]
      linarith
    exact max_eq_left (by linarith)
  refine ⟨hm, ?_⟩
  unfold calculate_score
  simp only [hm]
  cases hmk : a.is_must_know
  · simp only [hmk, if_false, Bool.false_eq_true, mul_one]
  · simp only [hmk, if_true]

theorem recency_floor_witness :
    (7*24 ≤ ((604800 : ℚ) - artPlain.published_at) / 3600) ∧
    (recency_multiplier (((604800 : ℚ) - artPlain.published_at) / 3600) = 1/10 ∧
      (calculate_score artPlain 604800).1 =
        artPlain.source_weight * (1/10) * artPlain.category_confidence *
          (if artPlain.is_must_know then (3/2 : ℚ) else 1)) :=
  ⟨by norm_num [artPlain], recency_floor artPlain 604800 (by norm_num [artPlain])⟩

/-! ### C5: trending multiplier -/

/-- C5 fails on the code: `calculate_score` never reads `is_trending` and has
no 1.3 multiplier.  At a concrete pair of articles identical except for the
trending tag, the scores are equal (both 1), not in ratio 1.3. -/
theorem trending_multiplier_cex :
    (calculate_score { artPlain with is_trending := true } 0).1 =
      (calculate_score artPlain 0).1 ∧
    (calculate_score { artPlain with is_trending := true } 0).1 ≠
      (13/10) * (calculate_score artPlain 0).1 := by
  have hv : (calculate_score artPlain 0).1 = 1 := by
    unfold calculate_score artPlain recency_multiplier
    norm_num
  have heq : (calculate_score { artPlain with is_trending := true } 0).1 =
      (calculate_score artPlain 0).1 := rfl
  refine ⟨heq, ?_⟩
  rw [heq, hv]
  norm_num

/-- C5 amended: the trending tag has no effect on the score.  Two articles
identical in every score input (`source_weight`, `published_at`,
`category_confidence`, `is_must_know`) receive the same score regardless of
their `is_trending` tags; only must-know multiplies (by 1.5). -/
theorem trending_has_no_score_effect (a1 a2 : Article) (now : ℚ)
    (hw : a1.source_weight = a2.source_weight)
    (hp : a1.published_at = a2.published_at)
    (hc : a1.category_confidence = a2.category_confidence)
    (hm : a1.is_must_know = a2.is_must_know) :
    (calculate_score a1 now).1 = (calculate_score a2 now).1 := by
  unfold calculate_score
  simp only [hw, hp, hc, hm]

theorem trending_has_no_score_effect_witness :
    ({ artPlain with is_trending := true } : Article).source_weight =
      artPlain.source_weight ∧
    (calculate_score { artPlain with is_trending := true } 5).1 =
      (calculate_score artPlain 5).1 :=
  ⟨rfl, trending_has_no_score_effect _ _ 5 rfl rfl rfl rfl⟩

/-! ### C9: embedding failure skips dedup -/

/-- C9: if the batch embedding call raises, `deduplicate_articles` returns its
input unchanged — no partial dedup, no failure of the run. -/
theorem embedding_failure_skips_dedup
    (embed : List String → Except Unit (Nat → Nat → ℚ))
    (articles : List Article)
    (h : embed (dedup_texts articles) = .error ()) :
    deduplicate_articles embed articles = .ok articles := by
  unfold deduplicate_articles
  split
  · next h0 => rw [List.length_eq_zero.mp h0]
  · rw [h]

theorem embedding_failure_skips_dedup_witness :
    ((fun _ => Except.error ()) : List String → Except Unit (Nat → Nat → ℚ))
        (dedup_texts [artPlain]) = .error () ∧
    deduplicate_articles (fun _ => Except.error ()) [artPlain] =
      .ok [artPlain] :=
  ⟨rfl, embedding_failure_skips_dedup _ [artPlain] rfl⟩

/-! ### C2: classification failure drops the article -/

/-- C2 fails on the code: at a concrete article that passes the relevance gate
and reaches the oracle tier, a raising classifier leads to the article being
dropped (`continue` after the caught exception) — the output is empty, the
article is not retained under any fallback category/confidence. -/
theorem classification_error_drops_article_cex :
    is_student_related artNoRule.text_for_ai = true ∧
    scholarship_rule (lowerStr artNoRule.source) (lowerStr artNoRule.text_for_ai)
      = false ∧
    internship_rule (lowerStr artNoRule.source) (lowerStr artNoRule.text_for_ai)
      = false ∧
    classify_articles (fun _ => Except.error ()) [artNoRule] = [] :=
  ⟨by decide, by decide, by decide, rfl⟩

/-- C2 amended: for every article whose classification raises an exception
(here: the oracle call raises, on the path where no forced rule matched), the
article is dropped from the output — the caught exception `continue`s the
loop, and no fallback category or confidence is assigned. -/
theorem classification_error_drops_article
    (oracle : String → Except Unit OracleResult) (a : Article)
    (pre post : List Article)
    (hrel : is_student_related a.text_for_ai = true)
    (hs : scholarship_rule (lowerStr a.source) (lowerStr a.text_for_ai) = false)
    (hi : internship_rule (lowerStr a.source) (lowerStr a.text_for_ai) = false)
    (hor : oracle a.text_for_ai = .error ()) :
    classify_articles oracle (pre ++ a :: post) =
      classify_articles oracle pre ++ classify_articles oracle post := by
  have hnone : classifyOne oracle a = none := by
    unfold classifyOne
    rw [if_pos hrel]
    simp only [hs, hi, hor, Bool.false_eq_true, if_false]
  simp [classify_articles, List.filterMap_append, List.filterMap_cons, hnone]

theorem classification_error_drops_article_witness :
    is_student_related artNoRule.text_for_ai = true ∧
    classify_articles (fun _ => Except.error ())
        ([artScholar "p"] ++ artNoRule :: []) =
      classify_articles (fun _ => Except.error ()) [artScholar "p"] ++
        classify_articles (fun _ => Except.error ()) [] :=
  ⟨by decide,
   classification_error_drops_article _ _ _ _ (by decide) (by decide) (by decide)
     rfl⟩

/-! ### C3: oracle tier writes top label but a fixed confidence -/

/-- C3 fails on the code: with a concrete oracle reporting confidence 0.73 for
its top label, the classifier writes the top label but stores
`category_confidence = 1.0`, not the reported 0.73. -/
theorem oracle_confidence_not_verbatim_cex :
    oracle73 artNoRule.text_for_ai =
      .ok ⟨["Internships & Jobs", "Scholarships"], [73/100, 27/100]⟩ ∧
    (classify_articles oracle73 [artNoRule]).map
        (fun x => (x.category, x.category_confidence)) =
      [("Internships & Jobs", 1)] ∧
    ((73 : ℚ)/100) ≠ 1 :=
  ⟨rfl, rfl, by norm_num⟩

/-- C3 amended: for every article reaching the oracle tier whose oracle call
succeeds, the classifier writes the oracle's top-ranked label as the category
but sets `category_confidence` to the fixed value 1.0, regardless of the
confidence the oracle reported. -/
theorem oracle_label_fixed_confidence
    (oracle : String → Except Unit OracleResult) (a : Article)
    (r : OracleResult) (lab : String) (rest : List String)
    (hrel : is_student_related a.text_for_ai = true)
    (hs : scholarship_rule (lowerStr a.source) (lowerStr a.text_for_ai) = false)
    (hi : internship_rule (lowerStr a.source) (lowerStr a.text_for_ai) = false)
    (hor : oracle a.text_for_ai = .ok r)
    (hlab : r.labels = lab :: rest) :
    classifyOne oracle a =
      some { a with
        category := lab,
        category_confidence := 1,
        is_trending := is_trending a.text_for_ai,
        is_must_know := is_must_know a.text_for_ai } := by
  unfold classifyOne
  rw [if_pos hrel]
  simp only [hs, hi, hor, hlab, Bool.false_eq_true, if_false,
    List.get?_cons_zero]

theorem oracle_label_fixed_confidence_witness :
    oracle73 artNoRule.text_for_ai =
      .ok ⟨["Internships & Jobs", "Scholarships"], [73/100, 27/100]⟩ ∧
    classifyOne oracle73 artNoRule =
      some { artNoRule with
        category := "Internships & Jobs",
        category_confidence := 1,
        is_trending := is_trending artNoRule.text_for_ai,
        is_must_know := is_must_know artNoRule.text_for_ai } :=
  ⟨rfl,
   oracle_label_fixed_confidence oracle73 artNoRule
     ⟨["Internships & Jobs", "Scholarships"], [73/100, 27/100]⟩
     "Internships & Jobs" ["Scholarships"]
     (by decide) (by decide) (by decide) rfl rfl⟩

/-! ### C7: dedup is the identity below the threshold -/

theorem dedupInner_noop (sim : Nat → Nat → ℚ) (arts : List Article) (i : Nat)
    (js : List Nat) (rem : List Nat)
    (h : ∀ j ∈ js, ¬ DEDUP_THRESHOLD < sim i j) :
    dedupInner sim arts i js rem = .ok rem := by
  induction js with
  | nil => rfl
  | cons j js ih =>
    unfold dedupInner
    rw [if_neg (h j (List.mem_cons_self j js))]
    exact ih fun j' hj' => h j' (List.mem_cons_of_mem j hj')

theorem dedupOuter_noop (sim : Nat → Nat → ℚ) (arts : List Article)
    (indices : List Nat) (rem : List Nat)
    (h : ∀ i ∈ indices, ∀ j ∈ List.range' (i+1) (arts.length - (i+1)),
      ¬ DEDUP_THRESHOLD < sim i j) :
    dedupOuter sim arts indices rem = .ok rem := by
  induction indices with
  | nil => rfl
  | cons i rest ih =>
    unfold dedupOuter
    split
    · exact ih fun i' hi' => h i' (List.mem_cons_of_mem i hi')
    · rw [dedupInner_noop sim arts i _ rem (h i (List.mem_cons_self i rest)),
        except_ok_bind]
      exact ih fun i' hi' => h i' (List.mem_cons_of_mem i hi')

/-- C7: when every pair of articles has similarity at most the 0.85 threshold,
`deduplicate_articles` returns the input list unchanged, in order. -/
theorem dedup_identity_below_threshold
    (embed : List String → Except Unit (Nat → Nat → ℚ)) (sim : Nat → Nat → ℚ)
    (articles : List Article)
    (he : embed (dedup_texts articles) = .ok sim)
    (h : ∀ i j, i < j → j < articles.length → sim i j ≤ DEDUP_THRESHOLD) :
    deduplicate_articles embed articles = .ok articles := by
  unfold deduplicate_articles
  split
  · next h0 => rw [List.length_eq_zero.mp h0]
  · have houter : dedupOuter sim articles (List.range articles.length) [] =
        .ok [] := by
      refine dedupOuter_noop sim articles _ [] fun i hi j hj => ?_
      have hi' := List.mem_range.mp hi
      have hj' := List.mem_range'_1.mp hj
      exact not_lt.mpr (h i j (by omega) (by omega))
    rw [he]
    show (dedupOuter sim articles (List.range articles.length) [] >>= fun rem =>
      Except.ok (((articles.enum).filter fun p => !rem.contains p.1).map
        Prod.snd)) = .ok articles
    rw [houter, except_ok_bind]
    show Except.ok (((articles.enum).filter fun _ => true).map Prod.snd) =
      Except.ok articles
    rw [List.filter_true, List.enum_map_snd]

theorem dedup_identity_below_threshold_witness :
    ((fun _ => Except.ok fun _ _ => (0:ℚ)) : List String → Except Unit (Nat → Nat → ℚ))
        (dedup_texts [artScored "w1" 1, artScored "w2" 2]) =
      .ok (fun _ _ => (0:ℚ)) ∧
    deduplicate_articles (fun _ => Except.ok fun _ _ => (0:ℚ))
        [artScored "w1" 1, artScored "w2" 2] =
      .ok [artScored "w1" 1, artScored "w2" 2] :=
  ⟨rfl,
   dedup_identity_below_threshold _ _ _ rfl
     fun _ _ _ _ => by norm_num [DEDUP_THRESHOLD_eq]⟩

/-! ### C1: dedup runs before any score is written and aborts the run -/

theorem scoreOf_none (arts : List Article) (h : ∀ a ∈ arts, a.score = none)
    (k : Nat) : scoreOf arts k = .error () := by
  unfold scoreOf
  cases hk : arts.get? k with
  | none => rfl
  | some a =>
    show (match a.score with
      | some s => Except.ok s
      | none => Except.error ()) = Except.error ()
    rw [h a (List.get?_mem hk)]

theorem dedupInner_none (sim : Nat → Nat → ℚ) (arts : List Article) (i : Nat)
    (h : ∀ k, scoreOf arts k = .error ())
    (js : List Nat) (rem : List Nat) :
    dedupInner sim arts i js rem =
      if js.any (fun j => decide (DEDUP_THRESHOLD < sim i j)) then .error ()
      else .ok rem := by
  induction js with
  | nil => rfl
  | cons j js ih =>
    unfold dedupInner
    by_cases hj : DEDUP_THRESHOLD < sim i j
    · rw [if_pos hj]
      show (scoreOf arts i >>= _) = _
      rw [h i, except_error_bind]
      simp [hj]
    · rw [if_neg hj, ih]
      simp [hj]

theorem dedupOuter_none (sim : Nat → Nat → ℚ) (arts : List Article)
    (h : ∀ k, scoreOf arts k = .error ()) (indices : List Nat) :
    dedupOuter sim arts indices [] =
      if indices.any (fun i =>
          (List.range' (i+1) (arts.length - (i+1))).any
            (fun j => decide (DEDUP_THRESHOLD < sim i j))) then .error ()
      else .ok [] := by
  induction indices with
  | nil => rfl
  | cons i rest ih =>
    unfold dedupOuter
    rw [if_neg (by simp [List.contains])]
    rw [dedupInner_none sim arts i h]
    by_cases hany : (List.range' (i+1) (arts.length - (i+1))).any
        (fun j => decide (DEDUP_THRESHOLD < sim i j))
    · rw [if_pos hany]
      rw [except_error_bind]
      rw [List.any_cons, hany, Bool.true_or, if_pos rfl]
    · rw [if_neg hany, except_ok_bind, ih, List.any_cons,
        eq_false_of_ne_true hany, Bool.false_or]

theorem classifyOne_score {oracle : String → Except Unit OracleResult}
    {a b : Article} (h : classifyOne oracle a = some b) : b.score = a.score := by
  unfold classifyOne at h
  by_cases hrel : is_student_related a.text_for_ai = true
  case neg =>
    rw [if_neg hrel] at h
    exact Option.noConfusion h
  case pos =>
    rw [if_pos hrel] at h
    by_cases hs : scholarship_rule (lowerStr a.source) (lowerStr a.text_for_ai)
      = true
    · simp only [hs, if_true] at h
      have h' := Option.some.inj h
      subst h'
      rfl
    · by_cases hi : internship_rule (lowerStr a.source) (lowerStr a.text_for_ai)
        = true
      · simp only [eq_false_of_ne_true hs, Bool.false_eq_true, if_false, hi,
          if_true] at h
        have h' := Option.some.inj h
        subst h'
        rfl
      · cases hor : oracle a.text_for_ai with
        | error e =>
          simp only [eq_false_of_ne_true hs, eq_false_of_ne_true hi,
            Bool.false_eq_true, if_false, hor] at h
          exact Option.noConfusion h
        | ok r =>
          cases hlab : r.labels with
          | nil =>
            simp only [eq_false_of_ne_true hs, eq_false_of_ne_true hi,
              Bool.false_eq_true, if_false, hor, hlab, List.get?_nil] at h
            exact Option.noConfusion h
          | cons lab rest =>
            simp only [eq_false_of_ne_true hs, eq_false_of_ne_true hi,
              Bool.false_eq_true, if_false, hor, hlab,
              List.get?_cons_zero] at h
            have h' := Option.some.inj h
            subst h'
            rfl

/-- C1: in the main pipeline, `deduplicate_articles` runs before any score is
written (fetched articles carry no score key and classification never writes
one), so for every run where some pair of classified articles has similarity
strictly above the 0.85 threshold, the score comparison reads the missing
`score` key, the `KeyError` is not caught, and the whole run aborts. -/
theorem dedup_before_scoring_aborts_run
    (oracle : String → Except Unit OracleResult)
    (embed : List String → Except Unit (Nat → Nat → ℚ))
    (nowScore nowSelect : ℚ) (articles : List Article) (sim : Nat → Nat → ℚ)
    (hfetched : ∀ a ∈ articles, a.score = none)
    (he : embed (dedup_texts (classify_articles oracle articles)) = .ok sim)
    (i j : ℕ) (hij : i < j)
    (hj : j < (classify_articles oracle articles).length)
    (hsim : DEDUP_THRESHOLD < sim i j) :
    main_pipeline oracle embed nowScore nowSelect articles = .error () := by
  have hclnone : ∀ b ∈ classify_articles oracle articles, b.score = none := by
    intro b hb
    obtain ⟨a, ha, hab⟩ := List.mem_filterMap.mp hb
    rw [classifyOne_score hab]
    exact hfetched a ha
  have hscore : ∀ k, scoreOf (classify_articles oracle articles) k =
      .error () := scoreOf_none _ hclnone
  set cl := classify_articles oracle articles with hcl
  have hlen : cl.length ≤ articles.length := List.length_filterMap_le _ _
  have hdedup : deduplicate_articles embed cl = .error () := by
    unfold deduplicate_articles
    rw [if_neg (by omega : ¬ cl.length = 0)]
    rw [he]
    show (dedupOuter sim cl (List.range cl.length) [] >>= fun rem =>
      Except.ok (((cl.enum).filter fun p => !rem.contains p.1).map Prod.snd)) =
      .error ()
    rw [dedupOuter_none sim cl hscore]
    have hc : ((List.range cl.length).any fun i' =>
        (List.range' (i'+1) (cl.length - (i'+1))).any
          fun j' => decide (DEDUP_THRESHOLD < sim i' j')) = true := by
      rw [List.any_eq_true]
      refine ⟨i, List.mem_range.mpr (lt_trans hij hj), ?_⟩
      rw [List.any_eq_true]
      exact ⟨j, List.mem_range'_1.mpr ⟨by omega, by omega⟩,
        decide_eq_true hsim⟩
    rw [if_pos hc, except_error_bind]
  unfold main_pipeline
  rw [if_neg (by omega : ¬ articles.length = 0)]
  show (deduplicate_articles embed cl >>= fun dd =>
    select_top_per_category nowSelect (dd.map fun a =>
      (calculate_score a nowScore).2)) = .error ()
  rw [hdedup, except_error_bind]

theorem dedup_before_scoring_aborts_run_witness :
    (∀ a ∈ [artScholar "t1", artScholar "t2"], a.score = none) ∧
    DEDUP_THRESHOLD < (9:ℚ)/10 ∧
    main_pipeline (fun _ => Except.error ())
        (fun _ => Except.ok fun _ _ => (9:ℚ)/10) 0 0
        [artScholar "t1", artScholar "t2"] = .error () :=
  ⟨by decide, by norm_num [DEDUP_THRESHOLD_eq],
   dedup_before_scoring_aborts_run _ _ 0 0 _ _ (by decide) rfl 0 1
     (by decide) (by decide) (by norm_num [DEDUP_THRESHOLD_eq])⟩

/-! ### C4: the dedup pass refines the spec's description -/

theorem list_contains_iff (l : List ℕ) (k : ℕ) : l.contains k = true ↔ k ∈ l := by
  simp [List.contains, List.elem_iff]

theorem specScan_cons_gt_le {sim : Nat → Nat → ℚ} {score : Nat → ℚ}
    {i j : Nat} {js : List Nat} {S : Finset ℕ}
    (h1 : DEDUP_THRESHOLD < sim i j) (h2 : ¬ score i < score j) :
    specScan sim score i (j :: js) S = specScan sim score i js (insert j S) := by
  unfold specScan
  rw [if_pos h1, if_neg h2]
  cases js <;> rfl

theorem specScan_cons_gt_lt {sim : Nat → Nat → ℚ} {score : Nat → ℚ}
    {i j : Nat} {js : List Nat} {S : Finset ℕ}
    (h1 : DEDUP_THRESHOLD < sim i j) (h2 : score i < score j) :
    specScan sim score i (j :: js) S = insert i S := by
  unfold specScan
  rw [if_pos h1, if_pos h2]

theorem specScan_cons_le {sim : Nat → Nat → ℚ} {score : Nat → ℚ}
    {i j : Nat} {js : List Nat} {S : Finset ℕ}
    (h1 : ¬ DEDUP_THRESHOLD < sim i j) :
    specScan sim score i (j :: js) S = specScan sim score i js S := by
  unfold specScan
  rw [if_neg h1]
  cases js <;> rfl

theorem specFold_cons (sim : Nat → Nat → ℚ) (score : Nat → ℚ) (n i : Nat)
    (rest : List Nat) (S : Finset ℕ) :
    specFold sim score n (i :: rest) S = specFold sim score n rest
      (if i ∈ S then S
       else specScan sim score i (List.range' (i+1) (n - (i+1))) S) := rfl

theorem scoreOf_some (arts : List Article) (h : ∀ a ∈ arts, a.score.isSome)
    (k : Nat) (hk : k < arts.length) : scoreOf arts k = .ok (scoreFn arts k) := by
  unfold scoreOf scoreFn
  cases hg : arts.get? k with
  | none =>
    rw [List.get?_eq_none] at hg
    omega
  | some a =>
    show (match a.score with
      | some s => Except.ok s
      | none => Except.error ()) = .ok (a.score.getD 0)
    have hsome := h a (List.get?_mem hg)
    cases hsc : a.score with
    | none => rw [hsc] at hsome; exact absurd hsome (by simp)
    | some s => rfl

theorem dedupInner_bridge (sim : Nat → Nat → ℚ) (arts : List Article)
    (h : ∀ a ∈ arts, a.score.isSome) (i : Nat) (hi : i < arts.length) :
    ∀ (js : List Nat), (∀ j ∈ js, j < arts.length) →
    ∀ (rem : List Nat) (S : Finset ℕ), (∀ k, k ∈ rem ↔ k ∈ S) →
    ∃ rem', dedupInner sim arts i js rem = .ok rem' ∧
      ∀ k, k ∈ rem' ↔ k ∈ specScan sim (scoreFn arts) i js S := by
  intro js
  induction js with
  | nil =>
    intro _ rem S hrel
    exact ⟨rem, rfl, fun k => hrel k⟩
  | cons j js ih =>
    intro hjs rem S hrel
    by_cases hsim : DEDUP_THRESHOLD < sim i j
    · unfold dedupInner
      rw [if_pos hsim]
      rw [scoreOf_some arts h i hi, except_ok_bind,
        scoreOf_some arts h j (hjs j (List.mem_cons_self j js)), except_ok_bind]
      by_cases hcmp : scoreFn arts j ≤ scoreFn arts i
      · rw [if_pos hcmp]
        obtain ⟨rem', hr, hm⟩ :=
          ih (fun j' hj' => hjs j' (List.mem_cons_of_mem j hj')) (j :: rem)
            (insert j S)
            (fun k => by rw [List.mem_cons, Finset.mem_insert, hrel k])
        refine ⟨rem', hr, fun k => ?_⟩
        rw [hm k, specScan_cons_gt_le hsim (not_lt.mpr hcmp)]
      · rw [if_neg hcmp]
        refine ⟨i :: rem, rfl, fun k => ?_⟩
        rw [specScan_cons_gt_lt hsim (not_le.mp hcmp), List.mem_cons,
          Finset.mem_insert, hrel k]
    · unfold dedupInner
      rw [if_neg hsim]
      obtain ⟨rem', hr, hm⟩ :=
        ih (fun j' hj' => hjs j' (List.mem_cons_of_mem j hj')) rem S hrel
      refine ⟨rem', hr, fun k => ?_⟩
      rw [hm k, specScan_cons_le hsim]

theorem dedupOuter_bridge (sim : Nat → Nat → ℚ) (arts : List Article)
    (h : ∀ a ∈ arts, a.score.isSome) :
    ∀ (indices : List Nat), (∀ i ∈ indices, i < arts.length) →
    ∀ (rem : List Nat) (S : Finset ℕ), (∀ k, k ∈ rem ↔ k ∈ S) →
    ∃ rem', dedupOuter sim arts indices rem = .ok rem' ∧
      ∀ k, k ∈ rem' ↔ k ∈ specFold sim (scoreFn arts) arts.length indices S := by
  intro indices
  induction indices with
  | nil =>
    intro _ rem S hrel
    exact ⟨rem, rfl, fun k => hrel k⟩
  | cons i rest ih =>
    intro his rem S hrel
    by_cases hmem : i ∈ S
    · unfold dedupOuter
      rw [if_pos ((list_contains_iff rem i).mpr ((hrel i).mpr hmem))]
      rw [specFold_cons, if_pos hmem]
      exact ih (fun i' hi' => his i' (List.mem_cons_of_mem i hi')) rem S hrel
    · unfold dedupOuter
      rw [if_neg (fun hc => hmem ((hrel i).mp ((list_contains_iff rem i).mp hc)))]
      have hin : i < arts.length := his i (List.mem_cons_self i rest)
      obtain ⟨rem1, h1, hm1⟩ :=
        dedupInner_bridge sim arts h i hin
          (List.range' (i+1) (arts.length - (i+1)))
          (fun j hj => by
            have := List.mem_range'_1.mp hj
            omega)
          rem S hrel
      rw [h1, except_ok_bind]
      obtain ⟨rem', h2, hm2⟩ :=
        ih (fun i' hi' => his i' (List.mem_cons_of_mem i hi')) rem1 _ hm1
      refine ⟨rem', h2, fun k => ?_⟩
      rw [hm2 k, specFold_cons, if_neg hmem]

/-- The output of a successful dedup pass, expressed through the removal set
of the spec's described pass. -/
theorem dedup_spec_eq (embed : List String → Except Unit (Nat → Nat → ℚ))
    (sim : Nat → Nat → ℚ) (articles : List Article)
    (he : embed (dedup_texts articles) = .ok sim)
    (h : ∀ a ∈ articles, a.score.isSome) :
    deduplicate_articles embed articles =
      .ok (((articles.enum).filter fun p =>
        decide (p.1 ∉ specRemoved sim (scoreFn articles) articles.length)).map
        Prod.snd) := by
  unfold deduplicate_articles
  split
  · next h0 =>
    rw [List.length_eq_zero.mp h0]
    rfl
  · rw [he]
    show (dedupOuter sim articles (List.range articles.length) [] >>= fun rem =>
      Except.ok (((articles.enum).filter fun p => !rem.contains p.1).map
        Prod.snd)) = _
    obtain ⟨rem', h1, hm⟩ :=
      dedupOuter_bridge sim articles h (List.range articles.length)
        (fun i hi => List.mem_range.mp hi) [] ∅ (by simp)
    rw [h1, except_ok_bind]
    refine congrArg Except.ok (congrArg (List.map Prod.snd)
      (List.filter_congr ?_))
    intro p _
    by_cases hp : p.1 ∈ specRemoved sim (scoreFn articles) articles.length
    · have hc : rem'.contains p.1 = true :=
        (list_contains_iff rem' p.1).mpr ((hm p.1).mpr hp)
      rw [hc, decide_eq_false (not_not_intro hp)]
      rfl
    · have hc : rem'.contains p.1 = false :=
        eq_false_of_ne_true fun hcc => hp ((hm p.1).mp
          ((list_contains_iff rem' p.1).mp hcc))
      rw [hc, decide_eq_true hp]
      rfl

/-- C4: for every similarity matrix and every article list whose scores are
all present, `deduplicate_articles` returns exactly the articles whose index
survives the pass described by the spec: original index order, removed seeds
skipped, lower-scoring member of each above-threshold pair marked removed with
ties removing the later index, and the inner loop broken as soon as the seed
itself is removed. -/
theorem dedup_matches_spec_pass
    (embed : List String → Except Unit (Nat → Nat → ℚ)) (sim : Nat → Nat → ℚ)
    (articles : List Article)
    (he : embed (dedup_texts articles) = .ok sim)
    (h : ∀ a ∈ articles, a.score.isSome) :
    deduplicate_articles embed articles =
      .ok (((articles.enum).filter fun p =>
        decide (p.1 ∉ specRemoved sim (scoreFn articles) articles.length)).map
        Prod.snd) :=
  dedup_spec_eq embed sim articles he h

theorem dedup_matches_spec_pass_witness :
    (∀ a ∈ artsChain, a.score.isSome) ∧
    deduplicate_articles (fun _ => Except.ok simChain) artsChain =
      .ok (((artsChain.enum).filter fun p =>
        decide (p.1 ∉ specRemoved simChain (scoreFn artsChain)
          artsChain.length)).map Prod.snd) :=
  ⟨by decide, dedup_matches_spec_pass _ _ _ rfl (by decide)⟩

/-! ### C8: dedup monotonicity -/

/-- C8 fails on the code in its second half: in the chain `artsChain`
(0 similar to 1 and to 2, scores 2, 1, 3), the pass first removes index 1
(lower than 0), then removes index 0 in favour of index 2 — so article 0,
the strictly-higher-scoring member of the similar pair (0, 1), is removed. -/
theorem dedup_monotonicity_cex :
    deduplicate_articles (fun _ => Except.ok simChain) artsChain =
      .ok [artScored "a2" 3] ∧
    DEDUP_THRESHOLD < simChain 0 1 ∧
    (artScored "a0" 2).score = some 2 ∧
    (artScored "a1" 1).score = some 1 ∧
    ((1:ℚ) < 2) ∧
    artScored "a0" 2 ∉ [artScored "a2" 3] := by
  refine ⟨by rfl, by norm_num [simChain, DEDUP_THRESHOLD], rfl, rfl,
    by norm_num, by decide⟩

theorem specScan_partner (sim : Nat → Nat → ℚ) (score : Nat → ℚ) (i : Nat) :
    ∀ (js : List Nat) (S : Finset ℕ), (∀ j ∈ js, i < j) →
    (∀ k ∈ S, removalJustified sim score k) →
    ∀ k ∈ specScan sim score i js S, removalJustified sim score k := by
  intro js
  induction js with
  | nil => intro S _ hS k hk; exact hS k hk
  | cons j js ih =>
    intro S hij hS k hk
    by_cases hsim : DEDUP_THRESHOLD < sim i j
    · by_cases hlt : score i < score j
      · rw [specScan_cons_gt_lt hsim hlt] at hk
        rcases Finset.mem_insert.mp hk with hk | hk
        · subst hk
          exact ⟨j, Or.inl ⟨hij j (List.mem_cons_self j js), hsim⟩,
            le_of_lt hlt⟩
        · exact hS k hk
      · rw [specScan_cons_gt_le hsim hlt] at hk
        have hSins : ∀ k' ∈ insert j S, removalJustified sim score k' := by
          intro k' hk'
          rcases Finset.mem_insert.mp hk' with hk' | hk'
          · rw [hk']
            exact ⟨i, Or.inr ⟨hij j (List.mem_cons_self j js), hsim⟩,
              not_lt.mp hlt⟩
          · exact hS k' hk'
        exact ih _ (fun j' hj' => hij j' (List.mem_cons_of_mem j hj')) hSins
          k hk
    · rw [specScan_cons_le hsim] at hk
      exact ih _ (fun j' hj' => hij j' (List.mem_cons_of_mem j hj')) hS k hk

theorem specFold_partner (sim : Nat → Nat → ℚ) (score : Nat → ℚ) (n : Nat) :
    ∀ (indices : List Nat) (S : Finset ℕ),
    (∀ k ∈ S, removalJustified sim score k) →
    ∀ k ∈ specFold sim score n indices S, removalJustified sim score k := by
  intro indices
  induction indices with
  | nil => intro S hS k hk; exact hS k hk
  | cons i rest ih =>
    intro S hS k hk
    rw [specFold_cons] at hk
    refine ih _ (fun k' hk' => ?_) k hk
    by_cases hmem : i ∈ S
    · rw [if_pos hmem] at hk'
      exact hS k' hk'
    · rw [if_neg hmem] at hk'
      refine specScan_partner sim score i _ S
        (fun j hj => ?_) hS k' hk'
      have := List.mem_range'_1.mp hj
      omega

theorem specRemoved_partner (sim : Nat → Nat → ℚ) (score : Nat → ℚ) (n : Nat) :
    ∀ k ∈ specRemoved sim score n, removalJustified sim score k :=
  specFold_partner sim score n (List.range n) ∅
    (fun k hk => absurd hk (Finset.not_mem_empty k))

/-- C8 amended: `deduplicate_articles` never increases the number of articles
(the output is a subsequence of the input), and every removed index was
removed in a comparison it lost: it has a partner index with similarity
strictly above the threshold whose score is at least its own.  The stronger
original reading — that the strictly-higher-scoring member of a similar pair
is never removed — fails (see the counterexample): a seed that wins one pair
can still lose a later pair and be removed. -/
theorem dedup_monotonicity_amended
    (embed : List String → Except Unit (Nat → Nat → ℚ)) (sim : Nat → Nat → ℚ)
    (articles : List Article)
    (he : embed (dedup_texts articles) = .ok sim)
    (h : ∀ a ∈ articles, a.score.isSome) :
    deduplicate_articles embed articles =
      .ok (((articles.enum).filter fun p =>
        decide (p.1 ∉ specRemoved sim (scoreFn articles) articles.length)).map
        Prod.snd) ∧
    (((articles.enum).filter fun p =>
      decide (p.1 ∉ specRemoved sim (scoreFn articles) articles.length)).map
      Prod.snd).Sublist articles ∧
    (((articles.enum).filter fun p =>
      decide (p.1 ∉ specRemoved sim (scoreFn articles) articles.length)).map
      Prod.snd).length ≤ articles.length ∧
    ∀ k ∈ specRemoved sim (scoreFn articles) articles.length,
      removalJustified sim (scoreFn articles) k := by
  have hsub : (((articles.enum).filter fun p =>
      decide (p.1 ∉ specRemoved sim (scoreFn articles) articles.length)).map
      Prod.snd).Sublist articles := by
    have h1 := (List.filter_sublist (l := articles.enum)
      (p := fun p => decide
        (p.1 ∉ specRemoved sim (scoreFn articles) articles.length))).map
      Prod.snd
    rwa [List.enum_map_snd] at h1
  exact ⟨dedup_spec_eq embed sim articles he h, hsub, hsub.length_le,
    specRemoved_partner _ _ _⟩

theorem dedup_monotonicity_amended_witness :
    (∀ a ∈ artsChain, a.score.isSome) ∧
    (deduplicate_articles (fun _ => Except.ok simChain) artsChain =
      .ok (((artsChain.enum).filter fun p =>
        decide (p.1 ∉ specRemoved simChain (scoreFn artsChain)
          artsChain.length)).map Prod.snd) ∧
    (((artsChain.enum).filter fun p =>
      decide (p.1 ∉ specRemoved simChain (scoreFn artsChain)
        artsChain.length)).map Prod.snd).Sublist artsChain ∧
    (((artsChain.enum).filter fun p =>
      decide (p.1 ∉ specRemoved simChain (scoreFn artsChain)
        artsChain.length)).map Prod.snd).length ≤ artsChain.length ∧
    ∀ k ∈ specRemoved simChain (scoreFn artsChain) artsChain.length,
      removalJustified simChain (scoreFn artsChain) k) :=
  ⟨by decide, dedup_monotonicity_amended _ _ _ rfl (by decide)⟩

/-! ### C6: selector output -/

theorem dictAppend_eq (d : List (String × List Article)) (key : String)
    (a : Article) (hk : key ∈ d.map Prod.fst) (hnd : (d.map Prod.fst).Nodup) :
    dictAppend d key a =
      some (d.map fun p => if p.1 = key then (p.1, p.2 ++ [a]) else p) := by
  induction d with
  | nil => simp at hk
  | cons p rest ih =>
    obtain ⟨k, l⟩ := p
    rw [List.map_cons] at hk hnd
    by_cases hkk : k = key
    · subst hkk
      unfold dictAppend
      rw [if_pos rfl]
      have hrest : rest.map
          (fun p => if p.1 = k then (p.1, p.2 ++ [a]) else p) = rest := by
        have hkne : k ∉ rest.map Prod.fst := (List.nodup_cons.mp hnd).1
        have hid : ∀ p ∈ rest,
            (if p.1 = k then (p.1, p.2 ++ [a]) else p) = p := by
          intro p hp
          rw [if_neg]
          intro hcon
          exact hkne (hcon ▸ List.mem_map_of_mem Prod.fst hp)
        exact (List.map_congr_left hid).trans (List.map_id rest)
      simp only [List.map_cons, hrest]
      simp
    · unfold dictAppend
      rw [if_neg hkk]
      have hk' : key ∈ rest.map Prod.fst := by
        rcases List.mem_cons.mp hk with h1 | h1
        · exact absurd h1.symm hkk
        · exact h1
      rw [ih hk' (List.nodup_cons.mp hnd).2]
      simp only [Option.map_some', List.map_cons]
      rw [if_neg hkk]

theorem groupArticles_eq (now : ℚ) :
    ∀ (arts : List Article) (d : List (String × List Article)),
    (d.map Prod.fst).Nodup →
    (∀ a ∈ arts, a.category ∈ d.map Prod.fst) →
    groupArticles now arts d = .ok (d.map fun p =>
      (p.1, p.2 ++ (scoredList now arts).filter fun x =>
        decide (x.category = p.1))) := by
  intro arts
  induction arts with
  | nil =>
    intro d _ _
    show Except.ok d = _
    simp [scoredList]
  | cons a rest ih =>
    intro d hnd hcat
    unfold groupArticles
    have hk : ((calculate_score a now).2).category ∈ d.map Prod.fst :=
      hcat a (List.mem_cons_self a rest)
    show (match dictAppend d (calculate_score a now).2.category
        (calculate_score a now).2 with
      | some d' => groupArticles now rest d'
      | none => Except.error ()) = _
    rw [dictAppend_eq d _ _ hk hnd]
    have hfst : ((d.map fun p =>
        if p.1 = (calculate_score a now).2.category
        then (p.1, p.2 ++ [(calculate_score a now).2]) else p)).map Prod.fst =
        d.map Prod.fst := by
      rw [List.map_map]
      refine List.map_congr_left fun p _ => ?_
      by_cases hpc : p.1 = (calculate_score a now).2.category
      · simp [hpc]
      · simp [hpc]
    show groupArticles now rest (d.map fun p =>
      if p.1 = (calculate_score a now).2.category
      then (p.1, p.2 ++ [(calculate_score a now).2]) else p) = _
    rw [ih _ (by rw [hfst]; exact hnd)
      (by rw [hfst]; exact fun a' ha' => hcat a' (List.mem_cons_of_mem a ha'))]
    rw [List.map_map]
    refine congrArg Except.ok (List.map_congr_left fun p _ => ?_)
    show (fun p => (p.1, p.2 ++ (scoredList now rest).filter fun x =>
        decide (x.category = p.1)))
      (if p.1 = (calculate_score a now).2.category
        then (p.1, p.2 ++ [(calculate_score a now).2]) else p) = _
  -- split on whether this entry is the article's category
    by_cases hpc : p.1 = (calculate_score a now).2.category
    · rw [if_pos hpc]
      show (p.1, (p.2 ++ [(calculate_score a now).2]) ++
        (scoredList now rest).filter fun x => decide (x.category = p.1)) = _
      have hsc : scoredList now (a :: rest) =
          (calculate_score a now).2 :: scoredList now rest := rfl
      rw [hsc, List.filter_cons, decide_eq_true hpc.symm, if_pos rfl,
        List.append_assoc, List.singleton_append]
    · rw [if_neg hpc]
      show (p.1, p.2 ++ (scoredList now rest).filter fun x =>
        decide (x.category = p.1)) = _
      have hsc : scoredList now (a :: rest) =
          (calculate_score a now).2 :: scoredList now rest := rfl
      rw [hsc, List.filter_cons,
        decide_eq_false (fun hcc => hpc hcc.symm)]
      simp only [Bool.false_eq_true, if_false]

theorem insertDesc_perm (a : Article) (l : List Article) :
    (insertDesc a l).Perm (a :: l) := by
  induction l with
  | nil => exact List.Perm.refl _
  | cons b rest ih =>
    unfold insertDesc
    split
    · exact (ih.cons b).trans (List.Perm.swap a b rest)
    · exact List.Perm.refl _

theorem sortByScoreDesc_perm (l : List Article) : (sortByScoreDesc l).Perm l := by
  induction l with
  | nil => exact List.Perm.refl _
  | cons a rest ih => exact (insertDesc_perm a _).trans (ih.cons a)

theorem insertDesc_pairwise (a : Article) (l : List Article)
    (h : l.Pairwise fun x y => sortKey y ≤ sortKey x) :
    (insertDesc a l).Pairwise fun x y => sortKey y ≤ sortKey x := by
  induction l with
  | nil => simp [insertDesc]
  | cons b rest ih =>
    rw [List.pairwise_cons] at h
    unfold insertDesc
    split
    · next hab =>
      rw [List.pairwise_cons]
      refine ⟨fun y hy => ?_, ih h.2⟩
      cases List.mem_cons.mp ((insertDesc_perm a rest).mem_iff.mp hy) with
      | inl h1 => rw [h1]; exact le_of_lt hab
      | inr h1 => exact h.1 y h1
    · next hab =>
      rw [List.pairwise_cons]
      refine ⟨fun y hy => ?_, List.pairwise_cons.mpr h⟩
      cases List.mem_cons.mp hy with
      | inl h1 => rw [h1]; exact not_lt.mp hab
      | inr h1 => exact le_trans (h.1 y h1) (not_lt.mp hab)

theorem sortByScoreDesc_pairwise (l : List Article) :
    (sortByScoreDesc l).Pairwise fun x y => sortKey y ≤ sortKey x := by
  induction l with
  | nil => simp [sortByScoreDesc]
  | cons a rest ih => exact insertDesc_pairwise a _ ih

theorem filter_insertDesc_ne (a : Article) (l : List Article) (v : ℚ)
    (ha : sortKey a ≠ v) :
    (insertDesc a l).filter (fun x => decide (sortKey x = v)) =
      l.filter (fun x => decide (sortKey x = v)) := by
  induction l with
  | nil => simp [insertDesc, ha]
  | cons b rest ih =>
    unfold insertDesc
    split
    · rw [List.filter_cons, List.filter_cons, ih]
    · rw [List.filter_cons, decide_eq_false ha]
      simp only [Bool.false_eq_true, if_false]

theorem filter_insertDesc_eq (a : Article) (l : List Article) (v : ℚ)
    (ha : sortKey a = v)
    (hl : l.Pairwise fun x y => sortKey y ≤ sortKey x) :
    (insertDesc a l).filter (fun x => decide (sortKey x = v)) =
      a :: l.filter (fun x => decide (sortKey x = v)) := by
  induction l with
  | nil => simp [insertDesc, ha]
  | cons b rest ih =>
    rw [List.pairwise_cons] at hl
    unfold insertDesc
    split
    · next hab =>
      have hbv : sortKey b ≠ v := by
        rw [← ha]
        exact ne_of_gt hab
      rw [List.filter_cons, decide_eq_false hbv]
      simp only [Bool.false_eq_true, if_false]
      rw [ih hl.2, List.filter_cons, decide_eq_false hbv]
      simp only [Bool.false_eq_true, if_false]
    · rw [List.filter_cons, decide_eq_true ha, if_pos rfl]

theorem sortByScoreDesc_stable (l : List Article) (v : ℚ) :
    (sortByScoreDesc l).filter (fun x => decide (sortKey x = v)) =
      l.filter (fun x => decide (sortKey x = v)) := by
  induction l with
  | nil => rfl
  | cons a rest ih =>
    show (insertDesc a (sortByScoreDesc rest)).filter _ = _
    by_cases ha : sortKey a = v
    · rw [filter_insertDesc_eq a _ v ha (sortByScoreDesc_pairwise rest), ih,
        List.filter_cons, decide_eq_true ha, if_pos rfl]
    · rw [filter_insertDesc_ne a _ v ha, ih, List.filter_cons,
        decide_eq_false ha]
      simp only [Bool.false_eq_true, if_false]

/-- C6: for every input whose articles carry a category of the fixed taxonomy
(the data-model invariant), the selector returns a mapping with exactly the
`CATEGORIES` keys in order (empty categories get an empty list); each
category's list has length at most `TOP_N`, contains only articles of that
category, and is sorted by descending score; and it is the `TOP_N`-prefix of a
descending-sorted list that, score level by score level, preserves the input
order of the rescored articles of that category (stable sort). -/
theorem selector_output_correct (now : ℚ) (articles : List Article)
    (h : ∀ a ∈ articles, a.category ∈ CATEGORIES) :
    ∃ d, select_top_per_category now articles = .ok d ∧
      d.map Prod.fst = CATEGORIES ∧
      ∀ cat l, (cat, l) ∈ d →
        l.length ≤ TOP_N ∧
        (∀ a ∈ l, a.category = cat) ∧
        l.Pairwise (fun x y => sortKey y ≤ sortKey x) ∧
        ∃ full : List Article, l = full.take TOP_N ∧
          full.Pairwise (fun x y => sortKey y ≤ sortKey x) ∧
          ∀ v : ℚ, full.filter (fun x => decide (sortKey x = v)) =
            ((scoredList now articles).filter fun x =>
              decide (x.category = cat)).filter
              fun x => decide (sortKey x = v) := by
  have hkeys : initDict.map Prod.fst = CATEGORIES := by
    rw [initDict, List.map_map]
    exact List.map_id CATEGORIES
  have hnd : (initDict.map Prod.fst).Nodup := by
    rw [hkeys]
    decide
  have hcat : ∀ a ∈ articles, a.category ∈ initDict.map Prod.fst := by
    rw [hkeys]
    exact h
  have hgroup := groupArticles_eq now articles initDict hnd hcat
  have hd0 : (initDict.map fun p =>
      (p.1, p.2 ++ (scoredList now articles).filter fun x =>
        decide (x.category = p.1))) =
      CATEGORIES.map fun c =>
        (c, (scoredList now articles).filter fun x =>
          decide (x.category = c)) := by
    rw [initDict, List.map_map]
    refine List.map_congr_left fun c _ => ?_
    show (c, [] ++ _) = _
    rw [List.nil_append]
  refine ⟨(CATEGORIES.map fun c =>
      (c, (scoredList now articles).filter fun x =>
        decide (x.category = c))).map
      fun p => (p.1, (sortByScoreDesc p.2).take TOP_N), ?_, ?_, ?_⟩
  · unfold select_top_per_category
    rw [hgroup, hd0]
  · rw [List.map_map, List.map_map]
    exact List.map_id CATEGORIES
  · intro cat l hmem
    rw [List.map_map, List.mem_map] at hmem
    obtain ⟨c, hcmem, heq⟩ := hmem
    have hcat' : cat = c := (congrArg Prod.fst heq).symm
    have hl : l = (sortByScoreDesc ((scoredList now articles).filter fun x =>
        decide (x.category = c))).take TOP_N := (congrArg Prod.snd heq).symm
    subst hcat'
    subst hl
    refine ⟨List.length_take_le _ _, ?_, ?_, ?_⟩
    · intro a ha
      have ha1 := List.take_subset _ _ ha
      have ha2 := (sortByScoreDesc_perm _).mem_iff.mp ha1
      have ha3 := (List.mem_filter.mp ha2).2
      exact of_decide_eq_true ha3
    · exact List.Pairwise.sublist (List.take_sublist _ _)
        (sortByScoreDesc_pairwise _)
    · exact ⟨sortByScoreDesc ((scoredList now articles).filter fun x =>
        decide (x.category = cat)), rfl, sortByScoreDesc_pairwise _,
        fun v => sortByScoreDesc_stable _ v⟩

theorem selector_output_correct_witness :
    (∀ a ∈ [({ artPlain with category := "Scholarships" } : Article)],
      a.category ∈ CATEGORIES) ∧
    (select_top_per_category 0
      [({ artPlain with category := "Scholarships" } : Article)]).isOk = true := by
  refine ⟨by decide, ?_⟩
  obtain ⟨d, hd, _⟩ := selector_output_correct 0
    [({ artPlain with category := "Scholarships" } : Article)] (by decide)
  rw [hd]
  rfl
